import Mathlib

/-!
Verification of the request-forwarding engine of the reverse proxy.

The Go source is shallowly embedded: Go strings become `List Char`
(byte-length and char-length orderings agree on all comparisons the code
performs, since they are only applied to prefixes of one common string),
`http.Header` becomes an association list from canonicalised MIME keys to
value lists, mutation of header maps through request pointers is made
explicit with a small heap of header cells, and the effectful steps of
`ServeHTTP` (outbound request construction, `client.Do`) are parameters of
the pure transition function.
-/

namespace RevProxy

/-- A Go string, embedded as its list of characters. -/
abbrev GoStr := List Char

/-- Model of `strings.CutPrefix`: returns the string with the prefix
removed and whether the prefix was present; if not, the string unchanged. -/
def goStrCut (s pre : GoStr) : GoStr × Bool :=
  if pre.isPrefixOf s then (s.drop pre.length, true) else (s, false)

/-- Model of `strings.HasPrefix`. -/
def goStartsWith (s pre : GoStr) : Bool :=
  pre.isPrefixOf s

/-- Whitespace per Go `unicode.IsSpace`, restricted to the Latin-1 range
(the only one relevant here): space, tab, LF, VT, FF, CR, NEL, NBSP. -/
def goIsSpace (c : Char) : Bool :=
  c == ' ' || c == '\t' || c == '\n' || c == Char.ofNat 11 ||
  c == Char.ofNat 12 || c == '\r' || c == Char.ofNat 133 || c == Char.ofNat 160

/-- Model of `strings.TrimSpace`. -/
def goTrimSpace (s : GoStr) : GoStr :=
  ((s.dropWhile goIsSpace).reverse.dropWhile goIsSpace).reverse

/-- Index of the last occurrence of a character, as used by Go
`net.SplitHostPort` (which scans for the last colon). -/
def lastIndexOf (c : Char) (s : GoStr) : Option Nat :=
  (((s.enum.filter (fun q => q.2 == c)).map Prod.fst).getLast?)

/-- Index of the first occurrence of a character. -/
def firstIndexOf (c : Char) (s : GoStr) : Option Nat :=
  ((s.enum.find? (fun q => q.2 == c)).map Prod.fst)

/-- Model of Go `net.SplitHostPort`: splits `"host:port"` (including the
`"[host]:port"` bracket form) into host and port, `none` on any of the
error cases of the Go implementation (missing port, too many colons,
stray brackets). -/
def goSplitHostPort (s : GoStr) : Option (GoStr × GoStr) :=
  match lastIndexOf ':' s with
  | none => none
  | some i =>
    let attempt : Option (GoStr × Nat × Nat) :=
      match s with
      | '[' :: _ =>
        match firstIndexOf ']' s with
        | none => none
        | some e =>
          if e + 1 = s.length then none
          else if e + 1 = i then some ((s.drop 1).take (e - 1), 1, e + 1)
          else none
      | _ =>
        let host := s.take i
        if host.contains ':' then none else some (host, 0, 0)
    match attempt with
    | none => none
    | some (host, j, k) =>
      if (s.drop j).contains '[' then none
      else if (s.drop k).contains ']' then none
      else some (host, s.drop (i + 1))

/-! ## Header maps

Go `http.Header` is `map[string][]string` keyed by canonical MIME keys;
`Get`/`Set`/`Del` canonicalise their argument. We embed the map as an
association list (iteration order is irrelevant to every property proved
here) and implement `textproto.CanonicalMIMEHeaderKey`. -/

/-- The characters Go `textproto` accepts in a header field name
(RFC 7230 token characters). -/
def validHeaderFieldByte (c : Char) : Bool :=
  c.isAlphanum ||
  ['!', '#', '$', '%', '&', Char.ofNat 39, '*', '+', '-', '.',
   '^', '_', Char.ofNat 96, '|', '~'].contains c

/-- The case-normalisation pass of `CanonicalMIMEHeaderKey`: uppercase
after a hyphen (and at the start), lowercase elsewhere. -/
def canonizeFrom : Bool → GoStr → GoStr
  | _, [] => []
  | up, c :: cs => (if up then c.toUpper else c.toLower) :: canonizeFrom (c == '-') cs

/-- Model of `textproto.CanonicalMIMEHeaderKey`: keys containing invalid
bytes are returned unmodified, otherwise case-normalised. -/
def canonicalKey (k : GoStr) : GoStr :=
  if k.all validHeaderFieldByte then canonizeFrom true k else k

/-- A Go `http.Header`: keys (stored canonicalised by the operations
below) mapped to their list of values. -/
abbrev Headers := List (GoStr × List GoStr)

/-- Model of `http.Header.Get`: first value under the canonical key, or
the empty string. -/
def hget (k : GoStr) (h : Headers) : GoStr :=
  match h.find? (fun e => e.1 == canonicalKey k) with
  | some e => e.2.headD []
  | none => []

/-- Model of `http.Header.Del`: remove the canonical key. -/
def hdel (k : GoStr) (h : Headers) : Headers :=
  h.filter (fun e => !(e.1 == canonicalKey k))

/-- Replace the first entry under `ck` with the single value `v`, or
append a new entry. -/
def hsetGo (ck v : GoStr) : Headers → Headers
  | [] => [(ck, [v])]
  | e :: rest => if e.1 == ck then (ck, [v]) :: rest else e :: hsetGo ck v rest

/-- Model of `http.Header.Set`: bind the canonical key to exactly `[v]`. -/
def hset (k v : GoStr) (h : Headers) : Headers :=
  hsetGo (canonicalKey k) v h

/-- The fixed hop-by-hop header list of `proxy.go` (RFC 2616 s13.5.1). -/
def hopByHopHeaders : List GoStr :=
  ["Connection", "Keep-Alive", "Proxy-Authenticate", "Proxy-Authorization",
   "Proxy-Connection", "TE", "Trailer", "Transfer-Encoding", "Upgrade"].map String.data

/-- Delete every key of `ks` in turn. -/
def delKeys (ks : List GoStr) (h : Headers) : Headers :=
  ks.foldl (fun acc k => hdel k acc) h

/-- Model of `stripHopByHopHeaders`: delete every token named in the
`Connection` header value (comma-split, trimmed), then the fixed
hop-by-hop list. -/
def stripHopByHopHeaders (h : Headers) : Headers :=
  let connection := hget "Connection".data h
  let h1 :=
    if connection ≠ [] then
      delKeys ((connection.splitOn ',').map goTrimSpace) h
    else h
  delKeys hopByHopHeaders h1

/-! ## Route matching -/

/-- One iteration of the `matchRoute` loop: try the candidate route
`e = (prefix, target)` against the path, keeping it only when the
boundary condition of the source holds and it is strictly longer than the
current best. -/
def stepMR (p : GoStr) (acc : GoStr × GoStr × GoStr) (e : GoStr × GoStr) :
    GoStr × GoStr × GoStr :=
  let c := goStrCut p e.1
  if c.2 && ((c.1 == ([] : GoStr)) || goStartsWith c.1 ['/']) then
    if acc.1.length < e.1.length then (e.1, e.2, c.1) else acc
  else acc

/-- Model of `matchRoute` (`proxy.go`): fold the candidate routes,
starting from all-empty outputs. The Go map is embedded as an association
list; the result is iteration-order independent because the maximal
matching prefix is unique. -/
def matchRoute (p : GoStr) (routes : List (GoStr × GoStr)) :
    GoStr × GoStr × GoStr :=
  routes.foldl (stepMR p) ([], [], [])

/-- The boundary rule as the specification words it: candidate `pfx`
matches path `p` iff `p == pfx` or `p` starts with `pfx` followed by
`"/"`. -/
def boundaryMatches (pfx p : GoStr) : Bool :=
  (p == pfx) || goStartsWith p (pfx ++ ['/'])

/-- The route prefixes of a route table. -/
def routePrefixes (routes : List (GoStr × GoStr)) : List GoStr :=
  routes.map Prod.fst

/-- The specification claim about `matchRoute`, verbatim: a prefix is
returned iff it matches under the boundary rule and is of maximal length
among matching candidates, and if no candidate matches all outputs are
empty. -/
abbrev matchRouteClaim (routes : List (GoStr × GoStr)) (p : GoStr) : Prop :=
  (∀ P ∈ routePrefixes routes,
    ((matchRoute p routes).1 = P ↔
      (boundaryMatches P p = true ∧
        ∀ Q ∈ routePrefixes routes, boundaryMatches Q p = true →
          Q.length ≤ P.length)))
  ∧ ((∀ Q ∈ routePrefixes routes, boundaryMatches Q p = false) →
      matchRoute p routes = ([], [], []))

/-- The route table of `main.go`. -/
def demoRoutes : List (GoStr × GoStr) :=
  [("/service1".data, "http://localhost:8081".data),
   ("/service2".data, "http://localhost:8082".data)]

example : matchRoute "/service1/foo/bar".data demoRoutes =
    ("/service1".data, "http://localhost:8081".data, "/foo/bar".data) := by decide

example : matchRoute "/service1extra".data demoRoutes = ([], [], []) := by decide

example : goSplitHostPort "192.168.1.1:12345".data =
    some ("192.168.1.1".data, "12345".data) := by decide

example : goSplitHostPort "[::1]:8080".data = some ("::1".data, "8080".data) := by
  decide

example : goSplitHostPort "10.0.0.1".data = none := by decide

example : canonicalKey "x-forwarded-for".data = "X-Forwarded-For".data := by decide

/-! ## C1: `matchRoute` implements longest boundary-prefix matching -/

/-- The boundary rule implies being a plain list prefix. -/
lemma boundaryMatches_prefixOf {k p : GoStr} (h : boundaryMatches k p = true) :
    k <+: p := by
  rcases Bool.or_eq_true_iff.mp h with h' | h'
  · exact (beq_iff_eq.mp h') ▸ List.prefix_refl k
  · exact (List.prefix_append k ['/']).trans
      (List.isPrefixOf_iff_prefix.mp h')

/-- Two candidates matching the same path with equal lengths are equal. -/
lemma boundaryMatches_eq_of_length {k₁ k₂ p : GoStr}
    (h₁ : boundaryMatches k₁ p = true) (h₂ : boundaryMatches k₂ p = true)
    (hl : k₁.length = k₂.length) : k₁ = k₂ := by
  have p₁ := boundaryMatches_prefixOf h₁
  have p₂ := boundaryMatches_prefixOf h₂
  exact (List.prefix_of_prefix_length_le p₁ p₂ hl.le).eq_of_length hl

/-- Reduction of `goStrCut` on a present prefix. -/
lemma goStrCut_pos {s pre : GoStr} (h : pre.isPrefixOf s = true) :
    goStrCut s pre = (s.drop pre.length, true) := by
  unfold goStrCut; rw [if_pos h]

/-- Reduction of `goStrCut` on an absent prefix. -/
lemma goStrCut_neg {s pre : GoStr} (h : ¬ pre.isPrefixOf s = true) :
    goStrCut s pre = (s, false) := by
  unfold goStrCut; rw [if_neg h]

/-- The guard of the `matchRoute` loop is exactly the boundary rule. -/
lemma stepMR_guard_eq (p k : GoStr) :
    ((goStrCut p k).2 &&
      (((goStrCut p k).1 == ([] : GoStr)) || goStartsWith (goStrCut p k).1 ['/'])) =
    boundaryMatches k p := by
  by_cases hpre : k.isPrefixOf p = true
  · obtain ⟨t, ht⟩ := List.isPrefixOf_iff_prefix.mp hpre
    have hdrop : p.drop k.length = t := by
      rw [← ht, List.drop_left]
    rw [goStrCut_pos hpre]
    simp only [Bool.true_and, hdrop]
    rw [Bool.eq_iff_iff]
    unfold boundaryMatches goStartsWith
    simp only [Bool.or_eq_true, beq_iff_eq, List.isPrefixOf_iff_prefix]
    constructor
    · rintro (rfl | ⟨r, hr⟩)
      · exact Or.inl (by rw [← ht, List.append_nil])
      · exact Or.inr ⟨r, by rw [List.append_assoc, hr, ht]⟩
    · rintro (rfl | ⟨r, hr⟩)
      · have h0 : p ++ t = p ++ ([] : List Char) := by simpa using ht
        exact Or.inl (List.append_cancel_left h0)
      · refine Or.inr ⟨r, ?_⟩
        have h0 : k ++ (['/'] ++ r) = k ++ t := by
          rw [← List.append_assoc, hr, ht]
        exact List.append_cancel_left h0
  · rw [goStrCut_neg hpre]
    simp only [Bool.false_and]
    symm
    unfold boundaryMatches goStartsWith
    rw [Bool.or_eq_false_iff]
    constructor
    · rw [beq_eq_false_iff_ne]
      rintro rfl
      exact hpre (List.isPrefixOf_iff_prefix.mpr (List.prefix_refl p))
    · rw [Bool.eq_false_iff]
      intro hc
      exact hpre (List.isPrefixOf_iff_prefix.mpr
        ((List.prefix_append k ['/']).trans (List.isPrefixOf_iff_prefix.mp hc)))

/-- Closed form of one loop iteration. -/
lemma stepMR_eq (p : GoStr) (acc : GoStr × GoStr × GoStr) (e : GoStr × GoStr) :
    stepMR p acc e =
      if boundaryMatches e.1 p = true then
        (if acc.1.length < e.1.length then (e.1, e.2, p.drop e.1.length) else acc)
      else acc := by
  have hdef : stepMR p acc e =
      if ((goStrCut p e.1).2 &&
          (((goStrCut p e.1).1 == ([] : GoStr)) ||
            goStartsWith (goStrCut p e.1).1 ['/'])) = true then
        (if acc.1.length < e.1.length then (e.1, e.2, (goStrCut p e.1).1) else acc)
      else acc := rfl
  rw [hdef]
  simp only [stepMR_guard_eq]
  by_cases hb : boundaryMatches e.1 p = true
  · rw [if_pos hb, if_pos hb]
    have hpre : e.1.isPrefixOf p = true :=
      List.isPrefixOf_iff_prefix.mpr (boundaryMatches_prefixOf hb)
    rw [goStrCut_pos hpre]
  · rw [if_neg hb, if_neg hb]

/-- Invariant of the `matchRoute` fold: the result either is the starting
accumulator, or is a strictly longer matching candidate taken from the
list together with its target and the stripped suffix; and the final best
length dominates every matching candidate of the list as well as the
starting length. -/
lemma foldl_stepMR_spec (p : GoStr) :
    ∀ (l : List (GoStr × GoStr)) (acc : GoStr × GoStr × GoStr),
    (l.foldl (stepMR p) acc = acc ∨
      (∃ t, ((l.foldl (stepMR p) acc).1, t) ∈ l ∧
        boundaryMatches (l.foldl (stepMR p) acc).1 p = true ∧
        acc.1.length < (l.foldl (stepMR p) acc).1.length ∧
        l.foldl (stepMR p) acc =
          ((l.foldl (stepMR p) acc).1, t,
            p.drop (l.foldl (stepMR p) acc).1.length)))
    ∧ (∀ k ∈ routePrefixes l, boundaryMatches k p = true →
        k.length ≤ (l.foldl (stepMR p) acc).1.length)
    ∧ acc.1.length ≤ (l.foldl (stepMR p) acc).1.length := by
  intro l
  induction l with
  | nil => exact fun acc => ⟨Or.inl rfl, by simp [routePrefixes], le_refl _⟩
  | cons e l ih =>
    intro acc
    have hfold : (e :: l).foldl (stepMR p) acc = l.foldl (stepMR p) (stepMR p acc e) :=
      rfl
    by_cases hb : boundaryMatches e.1 p = true
    · by_cases hlen : acc.1.length < e.1.length
      · have hstep : stepMR p acc e = (e.1, e.2, p.drop e.1.length) := by
          rw [stepMR_eq, if_pos hb, if_pos hlen]
        rw [hfold, hstep]
        obtain ⟨ih1, ih2, ih3⟩ := ih (e.1, e.2, p.drop e.1.length)
        simp only at ih3
        refine ⟨?_, ?_, ?_⟩
        · rcases ih1 with h | ⟨t, hmem, hbt, hlt, heq⟩
          · rw [h]
            exact Or.inr ⟨e.2, List.mem_cons_self _ _, hb, hlen, rfl⟩
          · simp only at hlt
            exact Or.inr ⟨t, List.mem_cons_of_mem _ hmem, hbt,
              lt_trans hlen hlt, heq⟩
        · intro k hk hbk
          rcases List.mem_cons.mp (show k ∈ e.1 :: routePrefixes l from hk) with rfl | hk'
          · exact ih3
          · exact ih2 k hk' hbk
        · exact le_trans (le_of_lt hlen) ih3
      · have hstep : stepMR p acc e = acc := by
          rw [stepMR_eq, if_pos hb, if_neg hlen]
        rw [hfold, hstep]
        obtain ⟨ih1, ih2, ih3⟩ := ih acc
        refine ⟨?_, ?_, ih3⟩
        · rcases ih1 with h | ⟨t, hmem, hbt, hlt, heq⟩
          · exact Or.inl h
          · exact Or.inr ⟨t, List.mem_cons_of_mem _ hmem, hbt, hlt, heq⟩
        · intro k hk hbk
          rcases List.mem_cons.mp (show k ∈ e.1 :: routePrefixes l from hk) with rfl | hk'
          · exact le_trans (Nat.le_of_not_lt hlen) ih3
          · exact ih2 k hk' hbk
    · have hstep : stepMR p acc e = acc := by
        rw [stepMR_eq, if_neg hb]
      rw [hfold, hstep]
      obtain ⟨ih1, ih2, ih3⟩ := ih acc
      refine ⟨?_, ?_, ih3⟩
      · rcases ih1 with h | ⟨t, hmem, hbt, hlt, heq⟩
        · exact Or.inl h
        · exact Or.inr ⟨t, List.mem_cons_of_mem _ hmem, hbt, hlt, heq⟩
      · intro k hk hbk
        rcases List.mem_cons.mp (show k ∈ e.1 :: routePrefixes l from hk) with rfl | hk'
        · exact absurd hbk (by simp [hb])
        · exact ih2 k hk' hbk

/-- C1, counterexample: as stated, the claim quantifies over every routes
map, but a routes map containing the empty prefix violates the stated
iff: for path `"x"` the loop returns the all-empty outputs, so the
returned prefix equals the configured empty prefix even though `"x"` is
neither equal to it nor starts with it followed by `"/"`. -/
theorem matchRoute_claim_counterexample :
    ¬ matchRouteClaim [(([] : GoStr), "t".data)] "x".data := by decide

/-- C1 (amended): for every routes map whose configured prefixes are all
nonempty and every path, `matchRoute` returns a prefix `P` iff `P`
matches under the boundary rule (`p == P` or `p` starts with `P ++ "/"`)
and has maximal length among matching candidates; if no candidate
matches, the matched prefix, target, and suffix outputs are all empty. -/
theorem matchRoute_longest_boundary (routes : List (GoStr × GoStr)) (p : GoStr)
    (hne : ∀ k ∈ routePrefixes routes, k ≠ ([] : GoStr)) :
    matchRouteClaim routes p := by
  obtain ⟨h1, h2, _⟩ := foldl_stepMR_spec p routes ([], [], [])
  constructor
  · intro P hP
    constructor
    · rintro rfl
      rcases h1 with h | ⟨t, hmem, hbt, _, _⟩
      · exact absurd (congrArg (fun x => x.1) h) (hne _ hP)
      · exact ⟨hbt, fun Q hQ hbQ => h2 Q hQ hbQ⟩
    · rintro ⟨hbP, hmax⟩
      have hlenP : P.length ≤ (matchRoute p routes).1.length := h2 P hP hbP
      rcases h1 with h | ⟨t, hmem, hbt, _, _⟩
      · exfalso
        have : (matchRoute p routes).1 = ([] : GoStr) :=
          congrArg (fun x => x.1) h
        rw [this] at hlenP
        simp at hlenP
        exact hne P hP hlenP
      · have hmem' : (matchRoute p routes).1 ∈ routePrefixes routes :=
          List.mem_map.mpr ⟨_, hmem, rfl⟩
        have hlenM : (matchRoute p routes).1.length ≤ P.length :=
          hmax _ hmem' hbt
        exact boundaryMatches_eq_of_length hbt hbP (le_antisymm hlenM hlenP)
  · intro hnone
    rcases h1 with h | ⟨t, hmem, hbt, _, _⟩
    · exact h
    · exact absurd hbt (by simp [hnone _ (List.mem_map.mpr ⟨_, hmem, rfl⟩)])

/-- Witness for C1 (amended) at the configured route table of `main.go`
and a concrete path. -/
theorem matchRoute_longest_boundary_witness :
    (∀ k ∈ routePrefixes demoRoutes, k ≠ ([] : GoStr)) ∧
      matchRouteClaim demoRoutes "/service1/foo".data :=
  ⟨by decide, matchRoute_longest_boundary demoRoutes "/service1/foo".data (by decide)⟩

/-! ## C6: stripping hop-by-hop headers is idempotent -/

/-- Deleting a list of keys is one filter on the canonicalised keys. -/
lemma delKeys_eq_filter (ks : List GoStr) (h : Headers) :
    delKeys ks h = h.filter (fun e => !(ks.any (fun k => e.1 == canonicalKey k))) := by
  induction ks generalizing h with
  | nil =>
    unfold delKeys
    simp only [List.foldl_nil, List.any_nil, Bool.not_false]
    exact (List.filter_true h).symm
  | cons k ks ih =>
    have h1 : delKeys (k :: ks) h = delKeys ks (hdel k h) := rfl
    rw [h1, ih, hdel, List.filter_filter]
    refine List.filter_congr ?_
    intro e _
    simp only [List.any_cons, Bool.not_or]
    rw [Bool.and_comm]

/-- After deleting a list of keys, `Get` of any of them yields the empty
string. -/
lemma hget_delKeys_of_mem {ks : List GoStr} {k : GoStr}
    (hk : canonicalKey k ∈ ks.map canonicalKey) (h : Headers) :
    hget k (delKeys ks h) = [] := by
  rw [delKeys_eq_filter]
  unfold hget
  rw [(List.find?_eq_none).mpr]
  intro e he
  obtain ⟨hmem, hpred⟩ := List.mem_filter.mp he
  obtain ⟨k', hk', hck'⟩ := List.mem_map.mp hk
  simp only [Bool.not_eq_eq_eq_not, Bool.not_true, List.any_eq_false] at hpred
  intro hbeq
  have := hpred k' hk'
  rw [hck'] at this
  exact absurd hbeq (by simp [this])

/-- C6: stripping hop-by-hop headers is idempotent — for every header
map, applying `stripHopByHopHeaders` twice produces the same header map
as applying it once. -/
theorem stripHopByHop_idempotent (h : Headers) :
    stripHopByHopHeaders (stripHopByHopHeaders h) = stripHopByHopHeaders h := by
  have hstrip : ∀ g : Headers, stripHopByHopHeaders g =
      delKeys hopByHopHeaders
        (if hget "Connection".data g ≠ [] then
          delKeys (((hget "Connection".data g).splitOn ',').map goTrimSpace) g
        else g) := fun g => rfl
  have hconn : hget "Connection".data (stripHopByHopHeaders h) = [] := by
    rw [hstrip]
    exact hget_delKeys_of_mem (by decide) _
  have hidem : ∀ (ks : List GoStr) (x : Headers),
      delKeys ks (delKeys ks x) = delKeys ks x := by
    intro ks x
    rw [delKeys_eq_filter, delKeys_eq_filter, List.filter_filter]
    exact List.filter_congr (fun e _ => by rw [Bool.and_self])
  rw [hstrip (stripHopByHopHeaders h), hconn, if_neg (by simp)]
  conv_lhs => rw [hstrip h]
  rw [hstrip h]
  exact hidem hopByHopHeaders _

/-! ## Header mutation through request pointers

`setProxyHeaders` mutates `dst.Header`, which the first line of its body
binds to a clone of `src.Header`. To keep the aliasing structure of the Go
code observable, header maps live in a small heap of cells addressed by
reference; `Header.Clone` allocates a fresh cell, and every
`Set`/`Del`-style mutation rewrites one cell in place. -/

/-- The heap of header maps; a reference is an index into it. -/
abbrev HeaderHeap := List Headers

/-- Dereference a header cell. -/
def heapRead (hp : HeaderHeap) (r : Nat) : Headers :=
  hp.getD r []

/-- Overwrite a header cell in place. -/
def heapWrite (hp : HeaderHeap) (r : Nat) (v : Headers) : HeaderHeap :=
  hp.set r v

/-- Allocate a fresh header cell (model of `http.Header.Clone`, which
returns a new map). -/
def heapAlloc (hp : HeaderHeap) (v : Headers) : HeaderHeap × Nat :=
  (hp ++ [v], hp.length)

/-- The client-IP derivation of `setProxyHeaders`: split the remote
address as host:port, falling back to the raw address on error. -/
def goClientIP (remoteAddr : GoStr) : GoStr :=
  match goSplitHostPort remoteAddr with
  | some t => t.1
  | none => remoteAddr

/-- The state produced by `setProxyHeaders`: the heap after the mutations,
the reference of the outbound header map, and the outbound `Host`. -/
structure SPHResult where
  heap : HeaderHeap
  dstRef : Nat
  dstHost : GoStr

/-- Model of `setProxyHeaders` (`proxy.go`): clone the inbound headers
into the outbound request, strip hop-by-hop headers on the clone, derive
the client IP from the remote address (raw address if it does not split
as host:port), set `X-Real-IP` and `X-Forwarded-Proto`, append to or set
`X-Forwarded-For`, and carry over the inbound `Host`. -/
def setProxyHeaders (hp : HeaderHeap) (srcRef : Nat) (remoteAddr srcHost : GoStr) :
    SPHResult :=
  let a := heapAlloc hp (heapRead hp srcRef)
  let hp1 := a.1
  let dstRef := a.2
  let hp2 := heapWrite hp1 dstRef (stripHopByHopHeaders (heapRead hp1 dstRef))
  let clientIP := goClientIP remoteAddr
  let hp3 := heapWrite hp2 dstRef (hset "X-Real-IP".data clientIP (heapRead hp2 dstRef))
  let hp4 := heapWrite hp3 dstRef
    (hset "X-Forwarded-Proto".data "http".data (heapRead hp3 dstRef))
  let existing := hget "X-Forwarded-For".data (heapRead hp4 dstRef)
  let hp5 :=
    if existing ≠ [] then
      heapWrite hp4 dstRef
        (hset "X-Forwarded-For".data (existing ++ ", ".data ++ clientIP)
          (heapRead hp4 dstRef))
    else
      heapWrite hp4 dstRef
        (hset "X-Forwarded-For".data clientIP (heapRead hp4 dstRef))
  ⟨hp5, dstRef, srcHost⟩

/-- Reading below the end of the heap is unaffected by an allocation. -/
lemma heapRead_alloc_lt {hp : HeaderHeap} {r : Nat} (h : r < hp.length) (v : Headers) :
    heapRead (hp ++ [v]) r = heapRead hp r := by
  unfold heapRead
  rw [List.getD_eq_getElem?_getD, List.getD_eq_getElem?_getD,
    List.getElem?_append_left h]

/-- Reading the freshly allocated cell. -/
lemma heapRead_alloc_self (hp : HeaderHeap) (v : Headers) :
    heapRead (hp ++ [v]) hp.length = v := by
  unfold heapRead
  rw [List.getD_eq_getElem?_getD, List.getElem?_append_right (le_refl _)]
  simp

/-- Reading a different cell is unaffected by a write. -/
lemma heapRead_write_ne {r r' : Nat} (hne : r' ≠ r) (hp : HeaderHeap) (v : Headers) :
    heapRead (heapWrite hp r' v) r = heapRead hp r := by
  unfold heapRead heapWrite
  rw [List.getD_eq_getElem?_getD, List.getD_eq_getElem?_getD,
    List.getElem?_set_ne hne]

/-- Reading back a written cell. -/
lemma heapRead_write_self {hp : HeaderHeap} {r : Nat} (h : r < hp.length) (v : Headers) :
    heapRead (heapWrite hp r v) r = v := by
  unfold heapRead heapWrite
  rw [List.getD_eq_getElem?_getD, List.getElem?_set_self]
  · simp
  · exact h

/-- C8: `setProxyHeaders` leaves the inbound header map unmodified — all
stripping and insertion happens on the freshly allocated clone. -/
theorem setProxyHeaders_preserves_src (hp : HeaderHeap) (srcRef : Nat)
    (remoteAddr srcHost : GoStr) (hlt : srcRef < hp.length) :
    heapRead (setProxyHeaders hp srcRef remoteAddr srcHost).heap srcRef =
      heapRead hp srcRef := by
  have hne : hp.length ≠ srcRef := (Nat.ne_of_lt hlt).symm
  simp only [setProxyHeaders, heapAlloc]
  split <;>
    rw [heapRead_write_ne hne, heapRead_write_ne hne, heapRead_write_ne hne,
      heapRead_write_ne hne, heapRead_alloc_lt hlt]

/-- Witness for C8 at a concrete one-cell heap. -/
theorem setProxyHeaders_preserves_src_witness :
    0 < ([[("Authorization".data, ["Bearer tok".data])]] : HeaderHeap).length ∧
      heapRead (setProxyHeaders [[("Authorization".data, ["Bearer tok".data])]] 0
          "1.2.3.4:5678".data "example.com".data).heap 0 =
        heapRead [[("Authorization".data, ["Bearer tok".data])]] 0 :=
  ⟨by decide,
    setProxyHeaders_preserves_src [[("Authorization".data, ["Bearer tok".data])]] 0
      "1.2.3.4:5678".data "example.com".data (by decide)⟩

/-! ## C5: the X-Forwarded-For rewrite -/

/-- Reading back the key just written by `hset`. -/
lemma hget_hset_self (k v : GoStr) (h : Headers) :
    hget k (hset k v h) = v := by
  unfold hget hset
  induction h with
  | nil => simp [hsetGo]
  | cons e rest ih =>
    unfold hsetGo
    by_cases he : e.1 == canonicalKey k
    · simp [he]
    · simp only [he, if_false, List.find?]
      exact ih

/-- Reading a key other than the one just written by `hset`. -/
lemma hget_hset_ne {k k' : GoStr} (hne : canonicalKey k ≠ canonicalKey k')
    (v : GoStr) (h : Headers) : hget k' (hset k v h) = hget k' h := by
  unfold hget hset
  have hbne : (canonicalKey k == canonicalKey k') = false := by simpa using hne
  induction h with
  | nil => simp [hsetGo, hbne]
  | cons e rest ih =>
    unfold hsetGo
    by_cases he : e.1 == canonicalKey k
    · have he' : (e.1 == canonicalKey k') = false := by
        rw [beq_iff_eq] at he
        rw [he]
        exact hbne
      simp only [he, if_true, List.find?, hbne, he']
    · simp only [he, if_false, List.find?]
      by_cases he'' : e.1 == canonicalKey k'
      · simp [he'']
      · rw [show (e.1 == canonicalKey k') = false from by simpa using he'']
        exact ih

/-- C5, counterexample: with inbound headers
`Connection: X-Forwarded-For` and `X-Forwarded-For: 10.0.0.1` and client
IP `192.168.1.1`, the inbound request carries an `X-Forwarded-For`, yet
the outbound value is the client IP alone, not
`"10.0.0.1, 192.168.1.1"` — the presence check runs only after
hop-by-hop stripping has removed the header from the clone. -/
theorem setProxyHeaders_xff_counterexample :
    hget "X-Forwarded-For".data
        [("Connection".data, ["X-Forwarded-For".data]),
         ("X-Forwarded-For".data, ["10.0.0.1".data])] = "10.0.0.1".data ∧
    hget "X-Forwarded-For".data
        (heapRead
          (setProxyHeaders
            [[("Connection".data, ["X-Forwarded-For".data]),
              ("X-Forwarded-For".data, ["10.0.0.1".data])]] 0
            "192.168.1.1:12345".data "example.com".data).heap
          (setProxyHeaders
            [[("Connection".data, ["X-Forwarded-For".data]),
              ("X-Forwarded-For".data, ["10.0.0.1".data])]] 0
            "192.168.1.1:12345".data "example.com".data).dstRef) =
      "192.168.1.1".data := by
  constructor
  · decide
  · decide

/-- C5 (amended): the outbound `X-Forwarded-For` is the value still
present after hop-by-hop stripping of the cloned inbound headers,
followed by `", "` and the derived client IP, when one is still present
after stripping; and the client IP alone otherwise. -/
theorem setProxyHeaders_xff (hp : HeaderHeap) (srcRef : Nat) (ra host : GoStr)
    (hlt : srcRef < hp.length) :
    hget "X-Forwarded-For".data
        (heapRead (setProxyHeaders hp srcRef ra host).heap
          (setProxyHeaders hp srcRef ra host).dstRef) =
      (if hget "X-Forwarded-For".data (stripHopByHopHeaders (heapRead hp srcRef)) ≠ [] then
        hget "X-Forwarded-For".data (stripHopByHopHeaders (heapRead hp srcRef)) ++
          ", ".data ++ goClientIP ra
      else goClientIP ra) := by
  have hneRI : canonicalKey "X-Real-IP".data ≠ canonicalKey "X-Forwarded-For".data := by
    decide
  have hnePr : canonicalKey "X-Forwarded-Proto".data ≠
      canonicalKey "X-Forwarded-For".data := by decide
  simp only [setProxyHeaders, heapAlloc]
  have hr1 : heapRead (hp ++ [heapRead hp srcRef]) hp.length = heapRead hp srcRef :=
    heapRead_alloc_self hp _
  rw [hr1]
  have hlen1 : hp.length < (hp ++ [heapRead hp srcRef]).length := by simp
  have hr2 : heapRead
      (heapWrite (hp ++ [heapRead hp srcRef]) hp.length
        (stripHopByHopHeaders (heapRead hp srcRef))) hp.length =
      stripHopByHopHeaders (heapRead hp srcRef) :=
    heapRead_write_self hlen1 _
  rw [hr2]
  have hlen2 : hp.length <
      (heapWrite (hp ++ [heapRead hp srcRef]) hp.length
        (stripHopByHopHeaders (heapRead hp srcRef))).length := by
    simpa [heapWrite] using hlen1
  have hr3 := heapRead_write_self hlen2
    (hset "X-Real-IP".data (goClientIP ra) (stripHopByHopHeaders (heapRead hp srcRef)))
  rw [hr3]
  have hlen3 : hp.length <
      (heapWrite
        (heapWrite (hp ++ [heapRead hp srcRef]) hp.length
          (stripHopByHopHeaders (heapRead hp srcRef))) hp.length
        (hset "X-Real-IP".data (goClientIP ra)
          (stripHopByHopHeaders (heapRead hp srcRef)))).length := by
    simpa [heapWrite] using hlen1
  have hr4 := heapRead_write_self hlen3
    (hset "X-Forwarded-Proto".data "http".data
      (hset "X-Real-IP".data (goClientIP ra)
        (stripHopByHopHeaders (heapRead hp srcRef))))
  rw [hr4]
  rw [hget_hset_ne hnePr, hget_hset_ne hneRI]
  by_cases hex : hget "X-Forwarded-For".data
      (stripHopByHopHeaders (heapRead hp srcRef)) ≠ []
  · rw [if_pos hex, if_pos hex]
    have hlen4 : hp.length <
        (heapWrite
          (heapWrite
            (heapWrite (hp ++ [heapRead hp srcRef]) hp.length
              (stripHopByHopHeaders (heapRead hp srcRef))) hp.length
            (hset "X-Real-IP".data (goClientIP ra)
              (stripHopByHopHeaders (heapRead hp srcRef)))) hp.length
          (hset "X-Forwarded-Proto".data "http".data
            (hset "X-Real-IP".data (goClientIP ra)
              (stripHopByHopHeaders (heapRead hp srcRef))))).length := by
      simpa [heapWrite] using hlen1
    rw [heapRead_write_self hlen4, hget_hset_self]
  · rw [if_neg hex, if_neg hex]
    have hlen4 : hp.length <
        (heapWrite
          (heapWrite
            (heapWrite (hp ++ [heapRead hp srcRef]) hp.length
              (stripHopByHopHeaders (heapRead hp srcRef))) hp.length
            (hset "X-Real-IP".data (goClientIP ra)
              (stripHopByHopHeaders (heapRead hp srcRef)))) hp.length
          (hset "X-Forwarded-Proto".data "http".data
            (hset "X-Real-IP".data (goClientIP ra)
              (stripHopByHopHeaders (heapRead hp srcRef))))).length := by
      simpa [heapWrite] using hlen1
    rw [heapRead_write_self hlen4, hget_hset_self]

/-- Witness for C5 (amended): inbound `X-Forwarded-For: 10.0.0.1` (and no
`Connection` tokens), client IP `192.168.1.1`. -/
theorem setProxyHeaders_xff_witness :
    0 < ([[("X-Forwarded-For".data, ["10.0.0.1".data])]] : HeaderHeap).length ∧
      hget "X-Forwarded-For".data
          (heapRead
            (setProxyHeaders [[("X-Forwarded-For".data, ["10.0.0.1".data])]] 0
              "192.168.1.1:12345".data "example.com".data).heap
            (setProxyHeaders [[("X-Forwarded-For".data, ["10.0.0.1".data])]] 0
              "192.168.1.1:12345".data "example.com".data).dstRef) =
        (if hget "X-Forwarded-For".data
            (stripHopByHopHeaders
              (heapRead [[("X-Forwarded-For".data, ["10.0.0.1".data])]] 0)) ≠ [] then
          hget "X-Forwarded-For".data
              (stripHopByHopHeaders
                (heapRead [[("X-Forwarded-For".data, ["10.0.0.1".data])]] 0)) ++
            ", ".data ++ goClientIP "192.168.1.1:12345".data
        else goClientIP "192.168.1.1:12345".data) :=
  ⟨by decide,
    setProxyHeaders_xff [[("X-Forwarded-For".data, ["10.0.0.1".data])]] 0
      "192.168.1.1:12345".data "example.com".data (by decide)⟩

/-! ## The forwarding engine: `ServeHTTP`

The effectful steps are oracles in the input: whether `http.NewRequest`
succeeds (it fails exactly when the target URL is malformed), and the
outcome of `p.client.Do`. Wall-clock fields of the log entry (timestamp,
latency) are omitted: they are real-time quantities with no functional
content. `int(r.ContentLength)` is the identity on the 64-bit platforms
the code targets, so the content length is carried as an integer. -/

/-- A Go `error` value as seen by the classification code: the typed
causes the handler distinguishes, an opaque rest, and wrapping (e.g.
the `*url.Error` produced by `http.Client.Do`). -/
inductive GoError where
  | maxBytes (limit : Nat)
  | timeout
  | deadlineExceeded
  | other (msg : GoStr)
  | wrap (e : GoError)
deriving DecidableEq

/-- Model of `errors.As(err, &maxBytesErr)`: the chain contains an
`*http.MaxBytesError`. -/
def wrapsMaxBytes : GoError → Bool
  | .maxBytes _ => true
  | .wrap e => wrapsMaxBytes e
  | _ => false

/-- Model of `os.IsTimeout(err) || errors.Is(err, context.DeadlineExceeded)`:
the chain contains a timeout-flagged error or the deadline sentinel. -/
def isTimeoutLike : GoError → Bool
  | .timeout => true
  | .deadlineExceeded => true
  | .wrap e => isTimeoutLike e
  | _ => false

/-- The error classification of `ServeHTTP` after a failed
`p.client.Do`, in source order: body-ceiling errors, then timeouts, then
everything else. Returns status code and `http.Error` message. -/
def classifyDoError (e : GoError) : Nat × GoStr :=
  if wrapsMaxBytes e then (413, "Request body too large".data)
  else if isTimeoutLike e then (504, "backend timeout".data)
  else (502, "Failed to reach target service".data)

/-- Modelled from the spec: `maxBodySize` is defined in configuration
code that is not part of src/ (only its use sites are); the spec fixes
the default request-body ceiling at 10 MiB. -/
def maxBodySize : Nat := 10 * 1024 * 1024

/-- Model of draining a body of `n` bytes through
`http.MaxBytesReader(w, body, limit)`: reading past the limit fails with
an `*http.MaxBytesError`, otherwise all `n` bytes come through. -/
def maxBytesReadAll (limit n : Nat) : Except GoError Nat :=
  if n > limit then .error (.maxBytes limit) else .ok n

/-- The completion record handed to `LogRequest` (wall-clock fields
omitted, see above). -/
structure LogEntry where
  method : GoStr
  path : GoStr
  backend : GoStr
  status : Nat
  clientIP : GoStr
  requestSize : Int
  responseSize : Nat
deriving DecidableEq

/-- A backend response as consumed by the success branch. -/
structure BackendResp where
  status : Nat
  body : GoStr
deriving DecidableEq

/-- One request as seen by `ServeHTTP`, with the oracles for the
effectful steps. -/
structure ServeInput where
  method : GoStr
  path : GoStr
  remoteAddr : GoStr
  contentLength : Int
  routes : List (GoStr × GoStr)
  newRequestOk : Bool
  doResult : Except GoError BackendResp

/-- What one `ServeHTTP` call produced: final status (as captured by the
`responseRecorder`), the body written to the client, how many times the
request was dispatched to a backend, and the emitted log entries. -/
structure ServeOutput where
  status : Nat
  body : GoStr
  dispatches : Nat
  logs : List LogEntry

/-- The client IP computed inside the deferred `LogRequest` block:
`clientIP, _, _ := net.SplitHostPort(r.RemoteAddr)` ignores the error,
so the zero value (empty string) is used when splitting fails. -/
def logClientIP (remoteAddr : GoStr) : GoStr :=
  match goSplitHostPort remoteAddr with
  | some t => t.1
  | none => []

/-- Model of `proxy.ServeHTTP`: route lookup, then either the 404
branch, the `http.NewRequest`-failure branch (500), the `client.Do`
error branch (classified), or the streaming branch; the deferred
`LogRequest` always runs once, after the branch completes, with the
status and byte count captured by the `responseRecorder` and the
request size clamped at zero. `http.Error` and `http.NotFound` write
the message followed by a newline. -/
def serveHTTP (inp : ServeInput) : ServeOutput :=
  let m := matchRoute inp.path inp.routes
  let branch : Nat × GoStr × Nat :=
    if m.1 ≠ [] then
      if inp.newRequestOk then
        match inp.doResult with
        | .error e =>
          ((classifyDoError e).1, (classifyDoError e).2 ++ ['\n'], 1)
        | .ok res => (res.status, res.body, 1)
      else (500, "Failed to create request".data ++ ['\n'], 0)
    else (404, "404 page not found".data ++ ['\n'], 0)
  let requestSize : Int := if inp.contentLength < 0 then 0 else inp.contentLength
  { status := branch.1
    body := branch.2.1
    dispatches := branch.2.2
    logs := [{ method := inp.method
               path := inp.path
               backend := m.2.1
               status := branch.1
               clientIP := logClientIP inp.remoteAddr
               requestSize := requestSize
               responseSize := branch.2.1.length }] }

/-- The classified failure that `rewriteRequest` (the
`httputil.ReverseProxy` variant in `proxy.go`) stores in the request
context for `errorHandler`: message and status. -/
structure ProxyError where
  message : GoStr
  status : Nat
deriving DecidableEq

/-- Model of `rewriteRequest`: on a route hit with an unparsable target
URL it records a 502 `"Internal proxy configuration error"`, on a route
miss a 404 `"Route not found"`, and otherwise no error. -/
def rewriteRequestError (path : GoStr) (routes : List (GoStr × GoStr))
    (parseOk : Bool) : Option ProxyError :=
  let m := matchRoute path routes
  if m.1 ≠ [] then
    if parseOk then none
    else some ⟨"Internal proxy configuration error".data, 502⟩
  else some ⟨"Route not found".data, 404⟩

/-! ## C2: the 404 branch -/

/-- A request whose path matches no configured route. -/
def c2Input : ServeInput :=
  { method := "GET".data
    path := "/unknown".data
    remoteAddr := "192.0.2.7:1234".data
    contentLength := 0
    routes := demoRoutes
    newRequestOk := true
    doResult := .ok ⟨200, []⟩ }

/-- C2: on a route miss the engine responds 404, but via `http.NotFound`
whose body is the fixed text `"404 page not found\n"` — the attempted
path `"/unknown"` does not appear in the response body, contrary to the
claim and to the repository SPEC (`no route matched for path: <path>`). -/
theorem notFound_body_lacks_path :
    (serveHTTP c2Input).status = 404 ∧
    (serveHTTP c2Input).body = "404 page not found\n".data ∧
    ¬ ("/unknown".data <:+: (serveHTTP c2Input).body) := by
  refine ⟨by decide, by decide, by decide⟩

/-! ## C3: prepare failures -/

/-- A request on a matched route whose outbound construction
(`http.NewRequest`) fails, e.g. because the configured backend base URL
is malformed. -/
def c3Input : ServeInput :=
  { method := "GET".data
    path := "/service1/x".data
    remoteAddr := "192.0.2.7:1234".data
    contentLength := 0
    routes := demoRoutes
    newRequestOk := false
    doResult := .ok ⟨200, []⟩ }

/-- C3, counterexample: when preparing the outbound request fails, the
wired handler (`proxy.ServeHTTP`) responds 500 `"Failed to create
request"`, not 502; and the unused `httputil` variant
(`rewriteRequest`/`errorHandler`) responds 502 but with message
`"Internal proxy configuration error"` — in neither path is the response
502 with message `"backend unavailable"`. -/
theorem prepareFailure_counterexample :
    (serveHTTP c3Input).status = 500 ∧
    (serveHTTP c3Input).status ≠ 502 ∧
    ¬ ("backend unavailable".data <:+: (serveHTTP c3Input).body) ∧
    rewriteRequestError "/service1/x".data demoRoutes false =
      some ⟨"Internal proxy configuration error".data, 502⟩ ∧
    ("Internal proxy configuration error".data : GoStr) ≠ "backend unavailable".data := by
  refine ⟨by decide, by decide, by decide, by decide, by decide⟩

/-- C3 (amended): for every request where preparing the outbound request
fails, the engine does not crash: it responds with status 500 and message
`"Failed to create request"`, dispatches nothing, and still emits exactly
one completion record. -/
theorem prepareFailure_responds_500 (inp : ServeInput)
    (hroute : (matchRoute inp.path inp.routes).1 ≠ [])
    (hprep : inp.newRequestOk = false) :
    (serveHTTP inp).status = 500 ∧
    (serveHTTP inp).body = "Failed to create request".data ++ ['\n'] ∧
    (serveHTTP inp).dispatches = 0 ∧
    (serveHTTP inp).logs.length = 1 := by
  refine ⟨?_, ?_, ?_, ?_⟩ <;> simp [serveHTTP, hroute, hprep]

/-- Witness for C3 (amended) at `c3Input`. -/
theorem prepareFailure_responds_500_witness :
    ((matchRoute c3Input.path c3Input.routes).1 ≠ [] ∧ c3Input.newRequestOk = false) ∧
      ((serveHTTP c3Input).status = 500 ∧
        (serveHTTP c3Input).body = "Failed to create request".data ++ ['\n'] ∧
        (serveHTTP c3Input).dispatches = 0 ∧
        (serveHTTP c3Input).logs.length = 1) :=
  ⟨⟨by decide, rfl⟩, prepareFailure_responds_500 c3Input (by decide) rfl⟩

/-! ## C4: body-ceiling errors are 413, never 502 -/

/-- C4: a dispatch failure whose error chain wraps an
`*http.MaxBytesError` — the excess detected up front or mid-read — makes
the engine respond 413 and never 502; draining a body of at most the
ceiling through the `MaxBytesReader` wrapper succeeds (so a body of
exactly the ceiling is not rejected), while one byte more fails with
exactly a wrapped-detectable `MaxBytesError`. -/
theorem bodyTooLarge_413_never_502 :
    (∀ (inp : ServeInput) (e : GoError),
      (matchRoute inp.path inp.routes).1 ≠ [] → inp.newRequestOk = true →
      inp.doResult = .error e → wrapsMaxBytes e = true →
      (serveHTTP inp).status = 413 ∧ (serveHTTP inp).status ≠ 502)
    ∧ (∀ n, n ≤ maxBodySize → maxBytesReadAll maxBodySize n = .ok n)
    ∧ maxBytesReadAll maxBodySize (maxBodySize + 1) = .error (.maxBytes maxBodySize)
    ∧ wrapsMaxBytes (.maxBytes maxBodySize) = true := by
  refine ⟨?_, ?_, rfl, rfl⟩
  · intro inp e hroute hok hdo hwrap
    have hclass : classifyDoError e = (413, "Request body too large".data) := by
      unfold classifyDoError
      rw [if_pos hwrap]
    refine ⟨?_, ?_⟩ <;> simp [serveHTTP, hroute, hok, hdo, hclass]
  · intro n hn
    unfold maxBytesReadAll
    rw [if_neg (Nat.not_lt.mpr hn)]

/-- A request dispatched on a matched route whose `client.Do` fails with
a wrapped `MaxBytesError` (as the transport reports a mid-read ceiling
hit). -/
def c4Input : ServeInput :=
  { method := "POST".data
    path := "/service1/upload".data
    remoteAddr := "192.0.2.7:1234".data
    contentLength := 10485761
    routes := demoRoutes
    newRequestOk := true
    doResult := .error (.wrap (.maxBytes maxBodySize)) }

/-- Witness for C4 at `c4Input` and a body of exactly the ceiling. -/
theorem bodyTooLarge_413_never_502_witness :
    ((serveHTTP c4Input).status = 413 ∧ (serveHTTP c4Input).status ≠ 502) ∧
      maxBytesReadAll maxBodySize maxBodySize = .ok maxBodySize :=
  ⟨bodyTooLarge_413_never_502.1 c4Input (.wrap (.maxBytes maxBodySize))
      (by decide) rfl rfl (by decide),
    bodyTooLarge_413_never_502.2.1 maxBodySize (le_refl _)⟩

/-! ## C7: exactly one completion record, at most one dispatch -/

/-- C7: every request handled by the engine emits exactly one completion
record (`LogRequest` runs once, from the deferred block), and no request
is dispatched to a backend more than once, whatever branch is taken. -/
theorem one_log_at_most_one_dispatch (inp : ServeInput) :
    (serveHTTP inp).logs.length = 1 ∧ (serveHTTP inp).dispatches ≤ 1 := by
  constructor
  · simp [serveHTTP]
  · simp only [serveHTTP]
    split
    · split
      · rcases inp.doResult with e | r <;> simp
      · simp
    · simp

/-! ## C10: the request-size field is the clamped content length -/

/-- C10: the request-size field of the emitted completion record is never
negative — it is the request content length when that is non-negative and
zero when the content length is negative (unknown). -/
theorem requestSize_clamped (inp : ServeInput) :
    ∀ entry ∈ (serveHTTP inp).logs,
      0 ≤ entry.requestSize ∧
      (0 ≤ inp.contentLength → entry.requestSize = inp.contentLength) ∧
      (inp.contentLength < 0 → entry.requestSize = 0) := by
  intro entry hmem
  have hentry : entry.requestSize =
      (if inp.contentLength < 0 then 0 else inp.contentLength) := by
    simp only [serveHTTP, List.mem_singleton] at hmem
    rw [hmem]
  rw [hentry]
  by_cases hcl : inp.contentLength < 0
  · rw [if_pos hcl]
    exact ⟨le_refl _, fun h => absurd h (by omega), fun _ => rfl⟩
  · rw [if_neg hcl]
    exact ⟨by omega, fun _ => rfl, fun h => absurd h hcl⟩

/-- A request with unknown content length (`ContentLength = -1`). -/
def c10Input : ServeInput :=
  { method := "GET".data
    path := "/unknown".data
    remoteAddr := "1.2.3.4:5".data
    contentLength := -1
    routes := demoRoutes
    newRequestOk := true
    doResult := .ok ⟨200, []⟩ }

/-- The completion record of `c10Input`. -/
def c10Entry : LogEntry :=
  ((serveHTTP c10Input).logs).headD ⟨[], [], [], 0, [], 0, 0⟩

/-- Witness for C10 at `c10Input`, whose content length is negative. -/
theorem requestSize_clamped_witness :
    c10Entry ∈ (serveHTTP c10Input).logs ∧
      0 ≤ c10Entry.requestSize ∧ c10Entry.requestSize = 0 :=
  ⟨by decide, (requestSize_clamped c10Input c10Entry (by decide)).1,
    (requestSize_clamped c10Input c10Entry (by decide)).2.2 (by decide)⟩

/-! ## C9: the response-size count is bytes delivered, not bytes read

`responseRecorder.Write` forwards to the underlying client-side writer
and adds the count the underlying `Write` *returned* — which, on a
mid-stream client disconnect, is smaller than the chunk handed in.
`io.Copy` stops after the first failed or short write. The underlying
writer is an oracle: each copy step carries the chunk read from the
backend together with how many of its bytes the client accepted and
whether the write errored. -/

/-- The `responseRecorder` of `responseRecorder.go`. -/
structure ResponseRecorder where
  statusCode : Nat
  bytesWritten : Nat
deriving DecidableEq

/-- Model of `responseRecorder.Write` (the counting part): the
underlying writer accepted `accepted` bytes, `bytesWritten` grows by
exactly that return value. -/
def recorderWrite (rr : ResponseRecorder) (accepted : Nat) : ResponseRecorder :=
  { rr with bytesWritten := rr.bytesWritten + accepted }

/-- One step of the `io.Copy` loop: the chunk read from the backend, how
many bytes the client-side writer accepted, and whether the write
returned an error. -/
structure CopyStep where
  chunk : GoStr
  accepted : Nat
  writeErr : Bool

/-- Model of `io.Copy(w, res.Body)` through the recorder: writes each
chunk read from the backend, stopping after the first write that errors
or is short; returns the final recorder and the total bytes read from the
backend. -/
def runCopy : ResponseRecorder → List CopyStep → ResponseRecorder × Nat
  | rr, [] => (rr, 0)
  | rr, s :: rest =>
    let rr1 := recorderWrite rr s.accepted
    if s.writeErr || s.accepted < s.chunk.length then
      (rr1, s.chunk.length)
    else
      let r := runCopy rr1 rest
      (r.1, s.chunk.length + r.2)

/-- The byte counts returned by the underlying `Write` calls actually
performed by the copy loop (it stops after the first failed or short
write). -/
def performedAccepts : List CopyStep → List Nat
  | [] => []
  | s :: rest =>
    if s.writeErr || s.accepted < s.chunk.length then [s.accepted]
    else s.accepted :: performedAccepts rest

/-- C9: after the copy loop, the recorder count (recorded in the
completion record) equals the starting count plus the sum of the byte
counts returned by the underlying `Write` calls — the bytes the client
accepted — and is bounded by the bytes read from the backend, so a
mid-stream client disconnect yields the delivered count. -/
theorem bytesWritten_counts_delivered (rr : ResponseRecorder)
    (steps : List CopyStep)
    (hacc : ∀ s ∈ steps, s.accepted ≤ s.chunk.length) :
    (runCopy rr steps).1.bytesWritten =
      rr.bytesWritten + (performedAccepts steps).sum ∧
    (runCopy rr steps).1.bytesWritten ≤ rr.bytesWritten + (runCopy rr steps).2 := by
  have hbw : ∀ (r : ResponseRecorder) (n : Nat),
      (recorderWrite r n).bytesWritten = r.bytesWritten + n := fun _ _ => rfl
  induction steps generalizing rr with
  | nil =>
    exact ⟨by simp [runCopy, performedAccepts], by simp [runCopy]⟩
  | cons s rest ih =>
    have hs : s.accepted ≤ s.chunk.length := hacc s (List.mem_cons_self _ _)
    have hrest : ∀ x ∈ rest, x.accepted ≤ x.chunk.length :=
      fun x hx => hacc x (List.mem_cons_of_mem _ hx)
    by_cases hstop : (s.writeErr || decide (s.accepted < s.chunk.length)) = true
    · have hrun : runCopy rr (s :: rest) =
          (recorderWrite rr s.accepted, s.chunk.length) := by
        conv_lhs => unfold runCopy
        rw [if_pos hstop]
      have hperf : performedAccepts (s :: rest) = [s.accepted] := by
        conv_lhs => unfold performedAccepts
        rw [if_pos hstop]
      rw [hrun, hperf, hbw]
      simp only [List.sum_cons, List.sum_nil]
      exact ⟨by omega, by omega⟩
    · have hrun : runCopy rr (s :: rest) =
          ((runCopy (recorderWrite rr s.accepted) rest).1,
            s.chunk.length + (runCopy (recorderWrite rr s.accepted) rest).2) := by
        conv_lhs => unfold runCopy
        rw [if_neg hstop]
      have hperf : performedAccepts (s :: rest) =
          s.accepted :: performedAccepts rest := by
        conv_lhs => unfold performedAccepts
        rw [if_neg hstop]
      obtain ⟨ih1, ih2⟩ := ih (recorderWrite rr s.accepted) hrest
      rw [hbw] at ih1 ih2
      rw [hrun, hperf]
      simp only [List.sum_cons]
      exact ⟨by omega, by omega⟩

/-- Witness for C9: two backend chunks of 5 bytes; the client accepts
only 3 bytes of the first before disconnecting, so 3 bytes are recorded
against 5 read. -/
theorem bytesWritten_counts_delivered_witness :
    (∀ s ∈ [⟨"hello".data, 3, true⟩, ⟨"world".data, 5, false⟩],
      CopyStep.accepted s ≤ s.chunk.length) ∧
      ((runCopy ⟨200, 0⟩ [⟨"hello".data, 3, true⟩, ⟨"world".data, 5, false⟩]).1.bytesWritten =
          0 + (performedAccepts
            [⟨"hello".data, 3, true⟩, ⟨"world".data, 5, false⟩]).sum ∧
        (runCopy ⟨200, 0⟩
            [⟨"hello".data, 3, true⟩, ⟨"world".data, 5, false⟩]).1.bytesWritten ≤
          0 + (runCopy ⟨200, 0⟩
            [⟨"hello".data, 3, true⟩, ⟨"world".data, 5, false⟩]).2) :=
  ⟨by decide,
    bytesWritten_counts_delivered ⟨200, 0⟩
      [⟨"hello".data, 3, true⟩, ⟨"world".data, 5, false⟩] (by decide)⟩

end RevProxy
